import Mathlib

set_option maxRecDepth 100000

/-!
Verification of the Legal-Mind-AI query orchestration engine
(`src/agents/orchestrator.py`), shallowly embedded over `List Char`.

Python strings are modelled as `List Char`; the Python string operations
used by the orchestrator (`in`, `count`, `split`, `strip`, `lower`,
slicing, `startswith`/`endswith`) are given executable Lean counterparts
below, faithful to CPython semantics on the ASCII inputs the code works
with (`Char.toLower` / `Char.isWhitespace` coincide with Python on ASCII).
-/

namespace LegalMind

/-- Python `s.lower()` on a character list. -/
def lowerAll (l : List Char) : List Char := l.map Char.toLower

/-- Does `hay` start with `needle`?  (Python `s.startswith(t)`.) -/
def startsWithSeq : List Char → List Char → Bool
  | [], _ => true
  | _ :: _, [] => false
  | a :: as', b :: bs => a == b && startsWithSeq as' bs

/-- Python substring test `needle in hay`. -/
def containsSub (needle : List Char) : List Char → Bool
  | [] => startsWithSeq needle []
  | c :: rest => startsWithSeq needle (c :: rest) || containsSub needle rest

/-- Python `s.lstrip()`. -/
def pyLstrip (l : List Char) : List Char := l.dropWhile Char.isWhitespace

/-- Python `s.rstrip()`. -/
def pyRstrip (l : List Char) : List Char :=
  (l.reverse.dropWhile Char.isWhitespace).reverse

/-- Python `s.strip()`. -/
def pyStrip (l : List Char) : List Char := pyRstrip (pyLstrip l)

/-- Python `s.split('\n')` (single-character separator, keeps empties). -/
def splitLines : List Char → List (List Char)
  | [] => [[]]
  | c :: rest =>
    if c = '\n' then [] :: splitLines rest
    else
      let ps := splitLines rest
      (c :: ps.headI) :: ps.tail

/-- One fuel-indexed step of Python `hay.split(sep)` for a non-empty
separator: scan left to right, flush the accumulator (in reverse) at each
non-overlapping separator occurrence. -/
def pySplitAux (sep : List Char) : Nat → List Char → List Char → List (List Char)
  | 0, rest, acc => [acc.reverse ++ rest]
  | fuel + 1, hay, acc =>
    match hay with
    | [] => [acc.reverse]
    | c :: rest =>
      if startsWithSeq sep hay then
        acc.reverse :: pySplitAux sep fuel (hay.drop sep.length) []
      else
        pySplitAux sep fuel rest (c :: acc)

/-- Python `hay.split(sep)` for a non-empty literal separator. -/
def pySplit (sep hay : List Char) : List (List Char) :=
  pySplitAux sep (hay.length + 1) hay []

/-- Word counter state machine: Python `len(s.split())` (split on
whitespace runs, dropping empties). -/
def countWordsGo : List Char → Bool → Nat
  | [], _ => 0
  | c :: rest, inWord =>
    if c.isWhitespace then countWordsGo rest false
    else (if inWord then 0 else 1) + countWordsGo rest true

/-- Python `len(s.split())`. -/
def countWords (l : List Char) : Nat := countWordsGo l false

/-- Python slice `s[:i]` for a possibly negative index `i`. -/
def pySliceTo (s : List Char) (i : Int) : List Char :=
  if 0 ≤ i then s.take i.toNat else s.take (s.length - i.natAbs)

/-- Python `'\n'.join(parts)`. -/
def joinLines (parts : List (List Char)) : List Char :=
  List.intercalate ['\n'] parts

/-- The literal `" and "` the orchestrator searches and splits on. -/
def andLit : List Char := " and ".data

/- ------------------------------------------------------------------
   QueryComplexityAnalyzer.analyze_complexity
   (src/agents/orchestrator.py lines 58-102)
   ------------------------------------------------------------------ -/

/-- Is the first character of the (already stripped) line a digit?
Python `line[0].isdigit()` guarded by the line's truthiness. -/
def headIsDigit : List Char → Bool
  | [] => false
  | c :: _ => c.isDigit

/-- Python `line.startswith('-')` as a head test (on a character list). -/
def headIsChar (d : Char) : List Char → Bool
  | [] => false
  | c :: _ => c == d

/-- Predicate for one line of the `numbered_points` comprehension:
`line.strip() and (line.strip()[0].isdigit() or line.strip().startswith('-'))`. -/
def numberedLine (line : List Char) : Bool :=
  let s := pyStrip line
  !s.isEmpty && (headIsDigit s || headIsChar '-' s)

/-- `numbered_points` of `analyze_complexity`: count of stripped non-empty
lines starting with a digit or `-`. -/
def numberedPoints (query : List Char) : Nat :=
  (splitLines query).countP numberedLine

/-- `has_compound_question = ' and ' in query.lower() and '?' in query`. -/
def hasCompoundQuestion (query : List Char) : Bool :=
  containsSub andLit (lowerAll query) && query.contains '?'

/-- `has_multiple_topics = query.count(',') > 2`. -/
def hasMultipleTopics (query : List Char) : Bool :=
  decide (2 < query.count ',')

/-- The additive complexity score of `analyze_complexity`. -/
def complexityScore (query : List Char) : Nat :=
  (if 50 < countWords query then 2 else 0) +
  (if 100 < countWords query then 2 else 0) +
  (if 1 < query.count '?' then 3 else 0) +
  (if 2 < numberedPoints query then 2 else 0) +
  (if hasCompoundQuestion query then 4 else 0) +
  (if hasMultipleTopics query then 2 else 0)

/-- The sequential threshold reassignments
`"simple"` / `score>=3 → "moderate"` / `>=6 → "complex"` / `>=8 → "very_complex"`. -/
def complexityLevel (score : Nat) : String :=
  let l1 := if 3 ≤ score then "moderate" else "simple"
  let l2 := if 6 ≤ score then "complex" else l1
  if 8 ≤ score then "very_complex" else l2

/-- Result record of `analyze_complexity`. -/
structure ComplexityAnalysis where
  complexity_level : String
  complexity_score : Nat
  word_count : Nat
  question_count : Nat
  numbered_points : Nat
  has_compound_question : Bool
  has_multiple_topics : Bool
  requires_chunking : Bool
  requires_specialized_processing : Bool
  estimated_processing_time : Nat
  deriving Repr, DecidableEq

/-- `QueryComplexityAnalyzer.analyze_complexity` (orchestrator.py 58-102). -/
def analyzeComplexity (query : List Char) : ComplexityAnalysis :=
  let score := complexityScore query
  { complexity_level := complexityLevel score
    complexity_score := score
    word_count := countWords query
    question_count := query.count '?'
    numbered_points := numberedPoints query
    has_compound_question := hasCompoundQuestion query
    has_multiple_topics := hasMultipleTopics query
    requires_chunking := decide (6 ≤ score)
    requires_specialized_processing := decide (4 ≤ score)
    estimated_processing_time := min (30 + score * 5) 60 }

/-- Rank of a complexity level under simple < moderate < complex < very_complex. -/
def levelRank (level : String) : Nat :=
  if level = "very_complex" then 3
  else if level = "complex" then 2
  else if level = "moderate" then 1
  else 0

/- ------------------------------------------------------------------
   Characterization lemmas for the string helpers
   ------------------------------------------------------------------ -/

theorem startsWithSeq_iff (needle hay : List Char) :
    startsWithSeq needle hay = true ↔ ∃ t, hay = needle ++ t := by
  induction needle generalizing hay with
  | nil => simp [startsWithSeq]
  | cons a as' ih =>
    cases hay with
    | nil =>
      simp only [startsWithSeq]
      constructor
      · intro h; exact absurd h (by simp)
      · rintro ⟨t, ht⟩; exact absurd ht (by simp)
    | cons b bs =>
      simp only [startsWithSeq, Bool.and_eq_true, beq_iff_eq, ih]
      constructor
      · rintro ⟨rfl, t, rfl⟩; exact ⟨t, rfl⟩
      · rintro ⟨t, ht⟩
        rw [List.cons_append] at ht
        obtain ⟨rfl, rfl⟩ := List.cons.inj ht
        exact ⟨rfl, t, rfl⟩

theorem containsSub_iff (needle hay : List Char) :
    containsSub needle hay = true ↔ ∃ a b, hay = a ++ needle ++ b := by
  induction hay with
  | nil =>
    simp only [containsSub, startsWithSeq_iff]
    constructor
    · rintro ⟨t, ht⟩
      exact ⟨[], t, by simp [ht.symm]⟩
    · rintro ⟨a, b, hab⟩
      have : needle = [] := by
        rcases List.append_eq_nil.mp (List.append_eq_nil.mp hab.symm).1 with ⟨_, h2⟩
        exact h2
      exact ⟨[], by simp [this]⟩
  | cons c rest ih =>
    simp only [containsSub, Bool.or_eq_true, startsWithSeq_iff, ih]
    constructor
    · rintro (⟨t, ht⟩ | ⟨a, b, hab⟩)
      · exact ⟨[], t, by simp [ht]⟩
      · exact ⟨c :: a, b, by simp [hab]⟩
    · rintro ⟨a, b, hab⟩
      cases a with
      | nil => exact Or.inl ⟨b, by simpa using hab⟩
      | cons a0 as' =>
        rw [List.cons_append, List.cons_append] at hab
        obtain ⟨rfl, htl⟩ := List.cons.inj hab
        exact Or.inr ⟨as', b, htl⟩

theorem containsSub_append_right (needle hay ext : List Char)
    (h : containsSub needle hay = true) :
    containsSub needle (hay ++ ext) = true := by
  rw [containsSub_iff] at h ⊢
  obtain ⟨a, b, rfl⟩ := h
  exact ⟨a, b ++ ext, by simp⟩

/- ------------------------------------------------------------------
   C1 — the compound-question flag of analyze_complexity
   ------------------------------------------------------------------ -/

/-- C1 counterexample: the query `"a and b??"` has two `"?"` characters,
yet `analyze_complexity` sets the compound-question flag, because the code
tests `'?' in query` (at least one) rather than exactly one. -/
theorem c1_compound_flag_counterexample :
    (analyzeComplexity "a and b??".data).has_compound_question = true ∧
    ("a and b??".data).count '?' ≠ 1 := by decide

/-- C1 amended: the compound-question flag of `analyze_complexity` is true
iff the query contains the substring `" and "` case-insensitively AND
contains at least one `"?"` character. -/
theorem c1_compound_flag_iff (q : List Char) :
    (analyzeComplexity q).has_compound_question = true ↔
      ((∃ a b, lowerAll q = a ++ andLit ++ b) ∧ '?' ∈ q) := by
  simp only [analyzeComplexity, hasCompoundQuestion, Bool.and_eq_true,
    containsSub_iff, List.contains, List.elem_iff]

/- ------------------------------------------------------------------
   Monotonicity lemmas: appending a '?' never decreases any scoring input
   ------------------------------------------------------------------ -/

theorem countWordsGo_le_append_q (l : List Char) :
    ∀ b : Bool, countWordsGo l b ≤ countWordsGo (l ++ ['?']) b := by
  induction l with
  | nil =>
    intro b
    simp [countWordsGo]
  | cons c rest ih =>
    intro b
    by_cases hc : c.isWhitespace
    · simpa [countWordsGo, hc] using ih false
    · simp only [List.cons_append, countWordsGo, hc, if_false,
        Bool.false_eq_true]
      exact Nat.add_le_add_left (ih true) _

theorem countWords_le_append_q (l : List Char) :
    countWords l ≤ countWords (l ++ ['?']) :=
  countWordsGo_le_append_q l false

theorem splitLines_append_last (l : List Char) (c : Char) (hc : ¬ c = '\n') :
    ∃ init last, splitLines l = init ++ [last] ∧
      splitLines (l ++ [c]) = init ++ [last ++ [c]] := by
  induction l with
  | nil => exact ⟨[], [], rfl, by simp [splitLines, hc]⟩
  | cons c0 rest ih =>
    obtain ⟨init, last, h1, h2⟩ := ih
    by_cases h0 : c0 = '\n'
    · exact ⟨[] :: init, last, by simp [splitLines, h0, h1],
        by simp [splitLines, h0, h2]⟩
    · cases init with
      | nil =>
        refine ⟨[], c0 :: last, ?_, ?_⟩
        · simp only [splitLines, if_neg h0, h1]
          simp
        · simp only [List.cons_append, splitLines, if_neg h0]
          simp [h2]
      | cons i0 is' =>
        refine ⟨(c0 :: i0) :: is', last, ?_, ?_⟩
        · simp only [splitLines, if_neg h0, h1]
          simp
        · simp only [List.cons_append, splitLines, if_neg h0]
          simp [h2]

theorem dropWhile_append_list (p : Char → Bool) (l m : List Char) :
    (l ++ m).dropWhile p =
      if (l.dropWhile p).isEmpty then m.dropWhile p else l.dropWhile p ++ m := by
  induction l with
  | nil => simp
  | cons c rest ih =>
    by_cases hc : p c
    · simpa [List.dropWhile_cons, hc] using ih
    · simp [List.dropWhile_cons, hc]

theorem pyRstrip_append_nonws (x : List Char) (c : Char)
    (hc : ¬ c.isWhitespace) : pyRstrip (x ++ [c]) = x ++ [c] := by
  simp [pyRstrip, List.dropWhile_cons, hc]

theorem pyStrip_append_q (l : List Char) :
    pyStrip (l ++ ['?']) =
      if (pyLstrip l).isEmpty then ['?'] else pyLstrip l ++ ['?'] := by
  have hq : ¬ ('?' : Char).isWhitespace := by decide
  unfold pyStrip pyLstrip
  rw [dropWhile_append_list]
  split_ifs with h
  · simp [List.dropWhile_cons, hq, pyRstrip]
  · exact pyRstrip_append_nonws _ _ hq

theorem pyRstrip_prefix (y : List Char) : pyRstrip y <+: y := by
  obtain ⟨t, ht⟩ := List.dropWhile_suffix (l := y.reverse) (p := Char.isWhitespace)
  refine ⟨t.reverse, ?_⟩
  have := congrArg List.reverse ht
  simpa [pyRstrip] using this

theorem headI_of_prefix {x y : List Char} (h : x <+: y) (hx : x ≠ []) :
    y.headI = x.headI := by
  obtain ⟨t, rfl⟩ := h
  cases x with
  | nil => exact absurd rfl hx
  | cons a as' => simp

theorem headIsDigit_eq_headI {l : List Char} (hl : l ≠ []) :
    headIsDigit l = l.headI.isDigit := by
  cases l with
  | nil => exact absurd rfl hl
  | cons c rest => simp [headIsDigit]

theorem headIsChar_eq_headI {l : List Char} (d : Char) (hl : l ≠ []) :
    headIsChar d l = (l.headI == d) := by
  cases l with
  | nil => exact absurd rfl hl
  | cons c rest => simp [headIsChar]

theorem numberedLine_append_q (l : List Char) (h : numberedLine l = true) :
    numberedLine (l ++ ['?']) = true := by
  simp only [numberedLine, Bool.and_eq_true, Bool.not_eq_true',
    Bool.or_eq_true] at h ⊢
  obtain ⟨hne, hhead⟩ := h
  have hne' : pyStrip l ≠ [] := by
    intro hcon
    rw [hcon] at hne
    simp at hne
  have hlne : pyLstrip l ≠ [] := by
    intro hcon
    apply hne'
    simp [pyStrip, hcon, pyRstrip]
  have hstr : pyStrip (l ++ ['?']) = pyLstrip l ++ ['?'] := by
    rw [pyStrip_append_q]
    simp [List.isEmpty_iff, hlne]
  have hpre : pyRstrip (pyLstrip l) <+: pyLstrip l := pyRstrip_prefix _
  have hheads : (pyLstrip l).headI = (pyStrip l).headI :=
    headI_of_prefix hpre hne'
  have hheadnew : (pyStrip (l ++ ['?'])).headI = (pyStrip l).headI := by
    rw [hstr, ← hheads]
    cases hll : pyLstrip l with
    | nil => exact absurd hll hlne
    | cons a as' => simp
  have hnew_ne : pyStrip (l ++ ['?']) ≠ [] := by
    rw [hstr]
    simp
  constructor
  · simpa [List.isEmpty_iff] using hnew_ne
  · rw [headIsDigit_eq_headI hnew_ne, headIsChar_eq_headI _ hnew_ne, hheadnew]
    rw [headIsDigit_eq_headI hne', headIsChar_eq_headI _ hne'] at hhead
    exact hhead

theorem numberedPoints_le_append_q (q : List Char) :
    numberedPoints q ≤ numberedPoints (q ++ ['?']) := by
  obtain ⟨init, last, h1, h2⟩ :=
    splitLines_append_last q '?' (by decide)
  unfold numberedPoints
  rw [h1, h2, List.countP_append, List.countP_append]
  refine Nat.add_le_add_left ?_ _
  simp only [List.countP_cons, List.countP_nil]
  by_cases hl : numberedLine last = true
  · simp [hl, numberedLine_append_q last hl]
  · simp only [Bool.not_eq_true] at hl
    simp [hl]

theorem lowerAll_append_q (q : List Char) :
    lowerAll (q ++ ['?']) = lowerAll q ++ ['?'] := by
  simp [lowerAll]

theorem hasCompoundQuestion_append_q (q : List Char)
    (h : hasCompoundQuestion q = true) :
    hasCompoundQuestion (q ++ ['?']) = true := by
  simp only [hasCompoundQuestion, Bool.and_eq_true] at h ⊢
  refine ⟨?_, ?_⟩
  · rw [lowerAll_append_q]
    exact containsSub_append_right _ _ _ h.1
  · simp [List.contains, List.elem_iff]

theorem ite_zero_mono {P Q : Prop} [Decidable P] [Decidable Q] (x : Nat)
    (h : P → Q) : (if P then x else 0) ≤ (if Q then x else 0) := by
  split_ifs with h1 h2
  · exact le_refl x
  · exact absurd (h h1) h2
  · exact Nat.zero_le x
  · exact le_refl 0

theorem complexityScore_le_append_q (q : List Char) :
    complexityScore q ≤ complexityScore (q ++ ['?']) := by
  unfold complexityScore
  have hw := countWords_le_append_q q
  have hqc : (q ++ ['?']).count '?' = q.count '?' + 1 := by
    simp [List.count_append]
  have hcm : (q ++ ['?']).count ',' = q.count ',' := by
    simp [List.count_append]
  refine Nat.add_le_add (Nat.add_le_add (Nat.add_le_add (Nat.add_le_add
    (Nat.add_le_add ?_ ?_) ?_) ?_) ?_) ?_
  · exact ite_zero_mono 2 (fun h => lt_of_lt_of_le h hw)
  · exact ite_zero_mono 2 (fun h => lt_of_lt_of_le h hw)
  · exact ite_zero_mono 3 (fun h => by omega)
  · exact ite_zero_mono 2
      (fun h => lt_of_lt_of_le h (numberedPoints_le_append_q q))
  · exact ite_zero_mono 4 (fun h => hasCompoundQuestion_append_q q h)
  · exact ite_zero_mono 2 (fun h => by rw [hasMultipleTopics, hcm]; exact h)

theorem levelRank_complexityLevel (s : Nat) :
    levelRank (complexityLevel s) =
      if 8 ≤ s then 3 else if 6 ≤ s then 2 else if 3 ≤ s then 1 else 0 := by
  by_cases h8 : 8 ≤ s <;> by_cases h6 : 6 ≤ s <;> by_cases h3 : 3 ≤ s <;>
    simp only [complexityLevel, h8, h6, h3, if_true, if_false] <;> decide

theorem levelRank_mono {s t : Nat} (h : s ≤ t) :
    levelRank (complexityLevel s) ≤ levelRank (complexityLevel t) := by
  rw [levelRank_complexityLevel, levelRank_complexityLevel]
  split_ifs <;> omega

/- ------------------------------------------------------------------
   C5 — complexity level never drops when a score-triggering feature
   (second '?') is added
   ------------------------------------------------------------------ -/

/-- C5: the complexity level is monotone in the complexity score, and in
particular appending a (second) `"?"` to any query never lowers the
level, under simple < moderate < complex < very_complex. -/
theorem c5_level_monotone :
    (∀ s t : Nat, s ≤ t →
        levelRank (complexityLevel s) ≤ levelRank (complexityLevel t)) ∧
    ∀ q : List Char,
      levelRank (analyzeComplexity q).complexity_level ≤
        levelRank (analyzeComplexity (q ++ ['?'])).complexity_level := by
  refine ⟨fun s t h => levelRank_mono h, fun q => ?_⟩
  simp only [analyzeComplexity]
  exact levelRank_mono (complexityScore_le_append_q q)

/-- C5 witness: a concrete instantiation of both conjuncts of
`c5_level_monotone`. -/
theorem c5_level_monotone_witness :
    levelRank (complexityLevel 5) ≤ levelRank (complexityLevel 7) ∧
    levelRank (analyzeComplexity "why?".data).complexity_level ≤
      levelRank (analyzeComplexity ("why?".data ++ ['?'])).complexity_level :=
  ⟨c5_level_monotone.1 5 7 (by decide), c5_level_monotone.2 "why?".data⟩

/- ------------------------------------------------------------------
   LegalMindOrchestrator._break_down_complex_query
   (src/agents/orchestrator.py lines 198-247)
   ------------------------------------------------------------------ -/

/-- `part.strip()` followed by appending `"?"` unless the stripped part
already ends with one (lines 206-212). -/
def addQuestionMark (part : List Char) : List Char :=
  let p := pyStrip part
  if p.getLast? == some '?' then p else p ++ ['?']

/-- `is_new_section` test of the line-based fallback (lines 227-232):
digit head with `". "` somewhere, or a `-`/`•` bullet, or a line ending in
`"?"` while the current section already has content. -/
def bdNewSection (line : List Char) (currentNonempty : Bool) : Bool :=
  (headIsDigit line && containsSub ". ".data line) ||
  headIsChar '-' line || headIsChar '•' line ||
  (line.getLast? == some '?' && currentNonempty)

/-- One iteration of the line-accumulation loop (lines 221-238); state is
`(parts, current_part)`. -/
def bdStep (st : List (List Char) × List (List Char)) (rawLine : List Char) :
    List (List Char) × List (List Char) :=
  let line := pyStrip rawLine
  if line.isEmpty then st
  else if bdNewSection line (!st.2.isEmpty) && !st.2.isEmpty then
    (st.1 ++ [joinLines st.2], [line])
  else (st.1, st.2 ++ [line])

/-- The line-based fallback of `_break_down_complex_query`
(lines 216-247): accumulate sections, flush the trailing section, and
return the whole query when at most one section was found. -/
def bdFallback (query : List Char) : List (List Char) :=
  let st := (splitLines query).foldl bdStep ([], [])
  let parts := if st.2.isEmpty then st.1 else st.1 ++ [joinLines st.2]
  if parts.length ≤ 1 then [query] else parts

/-- `LegalMindOrchestrator._break_down_complex_query`: the compound branch
guards on `' and ' in query.lower()` (case-insensitive) and exactly one
`"?"`, but then splits the raw query on the case-sensitive `' and '` and
only returns two parts when that split yields exactly two. -/
def breakDownComplexQuery (query : List Char) : List (List Char) :=
  if containsSub andLit (lowerAll query) && (query.count '?' == 1) then
    match pySplit andLit query with
    | [p1, p2] => [addQuestionMark p1, addQuestionMark p2]
    | _ => bdFallback query
  else bdFallback query

theorem getLast?_append_singleton (l : List Char) (c : Char) :
    (l ++ [c]).getLast? = some c := by
  rw [List.getLast?_append_cons]
  rfl

theorem addQuestionMark_getLast? (part : List Char) :
    (addQuestionMark part).getLast? = some '?' := by
  unfold addQuestionMark
  by_cases h : (pyStrip part).getLast? == some '?'
  · simp only [h, if_true]
    exact beq_iff_eq.mp h
  · simp only [h, if_false, Bool.false_eq_true]
    exact getLast?_append_singleton _ _

/- ------------------------------------------------------------------
   C4 — the compound branch of _break_down_complex_query
   ------------------------------------------------------------------ -/

/-- C4 counterexample: `"a and b and c?"` contains `" and "`
case-insensitively and has exactly one `"?"`, so the claim says it is
split on the first `" and "` into exactly two parts; but the code splits
on every `" and "` (three parts here), rejects the result, and the
line-based fallback returns the query unsplit. -/
theorem c4_decompose_counterexample :
    breakDownComplexQuery "a and b and c?".data = ["a and b and c?".data] ∧
    (breakDownComplexQuery "a and b and c?".data).length ≠ 2 := by decide

/-- C4 amended: when the query contains `" and "` case-insensitively, has
exactly one `"?"`, and the case-sensitive split on `" and "` yields
exactly two parts, `_break_down_complex_query` returns those two parts,
each stripped and given a trailing `"?"` if missing (so each returned
part ends with `"?"`); with more than one case-sensitive `" and "`, or
only differently-cased occurrences, it falls through to line-based
splitting instead. -/
theorem c4_decompose_amended (q p1 p2 : List Char)
    (hand : containsSub andLit (lowerAll q) = true)
    (hq : q.count '?' = 1)
    (hsplit : pySplit andLit q = [p1, p2]) :
    breakDownComplexQuery q = [addQuestionMark p1, addQuestionMark p2] ∧
    ∀ part ∈ breakDownComplexQuery q, part.getLast? = some '?' := by
  have hmain : breakDownComplexQuery q =
      [addQuestionMark p1, addQuestionMark p2] := by
    simp only [breakDownComplexQuery, hand, hq, hsplit]
    rfl
  refine ⟨hmain, ?_⟩
  intro part hpart
  rw [hmain] at hpart
  simp only [List.mem_cons, List.not_mem_nil, or_false] at hpart
  rcases hpart with rfl | rfl
  · exact addQuestionMark_getLast? p1
  · exact addQuestionMark_getLast? p2

/-- C4 witness: concrete instantiation of `c4_decompose_amended` at
`"what is A and what is B?"`, with the returned parts evaluated. -/
theorem c4_decompose_amended_witness :
    breakDownComplexQuery "what is A and what is B?".data =
      ["what is A?".data, "what is B?".data] ∧
    ∀ part ∈ breakDownComplexQuery "what is A and what is B?".data,
      part.getLast? = some '?' := by
  have h := c4_decompose_amended "what is A and what is B?".data
    "what is A".data "what is B?".data (by decide) (by decide) (by decide)
  refine ⟨?_, h.2⟩
  rw [h.1]
  decide

/- ------------------------------------------------------------------
   LegalMindOrchestrator._execute_single_agent_with_retry and
   _extract_wait_time (src/agents/orchestrator.py lines 511-560)
   ------------------------------------------------------------------ -/

/-- Numeric value of a run of decimal digit characters. -/
def digitsToNat (ds : List Char) : Nat :=
  ds.foldl (fun acc c => 10 * acc + (c.toNat - '0'.toNat)) 0

/-- Match of the regex `try again in (\d+) seconds?` anchored at the
start of `l` (already lowercased): the literal, one-or-more digits, then
`" second"`. -/
def tryParseWait (l : List Char) : Option Nat :=
  if startsWithSeq "try again in ".data l then
    let rest := l.drop ("try again in ".data).length
    let ds := rest.takeWhile Char.isDigit
    let rest2 := rest.dropWhile Char.isDigit
    if !ds.isEmpty && startsWithSeq " second".data rest2 then
      some (digitsToNat ds)
    else none
  else none

/-- `re.search` of the pattern: leftmost match over all start positions. -/
def searchWait : List Char → Option Nat
  | [] => none
  | c :: rest =>
    match tryParseWait (c :: rest) with
    | some n => some n
    | none => searchWait rest

/-- `_extract_wait_time` (lines 551-560): parse
`"try again in N seconds"` from the lowercased error text and add a
1-second buffer. -/
def extractWaitTime (err : List Char) : Option Nat :=
  (searchWait (lowerAll err)).map (· + 1)

/-- `"rate_limit_exceeded" in error_str.lower()` (line 521). -/
def rateLimitSignal (e : List Char) : Bool :=
  containsSub "rate_limit_exceeded".data (lowerAll e)

/-- `"timeout" in error_str.lower() or "time" in error_str.lower()`
(line 534). -/
def timeoutSignal (e : List Char) : Bool :=
  containsSub "timeout".data (lowerAll e) ||
  containsSub "time".data (lowerAll e)

def maxRetriesDefault : Nat := 3
def baseRetryDelay : Nat := 5
def maxRetryDelay : Nat := 60

/-- The message of the generic `Exception("Max retries exceeded")` after
the retry loop (line 549). -/
def maxRetriesErrorText : List Char := "Max retries exceeded".data

/-- Observable trace of one `_execute_single_agent_with_retry` call: the
final outcome, the argument of every `asyncio.sleep`, and the number of
backend attempts made. -/
instance exceptDecEq {α β : Type} [DecidableEq α] [DecidableEq β] :
    DecidableEq (Except α β) := fun x y =>
  match x, y with
  | .ok a, .ok b =>
    if h : a = b then isTrue (by rw [h])
    else isFalse (by intro hc; cases hc; exact h rfl)
  | .error a, .error b =>
    if h : a = b then isTrue (by rw [h])
    else isFalse (by intro hc; cases hc; exact h rfl)
  | .ok _, .error _ => isFalse (by intro hc; cases hc)
  | .error _, .ok _ => isFalse (by intro hc; cases hc)

structure DispatchTrace where
  outcome : Except (List Char) (List Char)
  sleeps : List Nat
  attemptsMade : Nat
  deriving Repr, DecidableEq

/-- The retry loop body (lines 513-547), one constructor case per loop
iteration; `fuel` is the number of loop iterations left in
`range(max_retries + 1)` and `attempt` the current index.  Falling off
the end of the loop yields the generic error of line 549. -/
def execAttempts (backend : Nat → Except (List Char) (List Char))
    (maxRetries : Nat) : Nat → Nat → DispatchTrace
  | 0, _ => ⟨.error maxRetriesErrorText, [], 0⟩
  | fuel + 1, attempt =>
    match backend attempt with
    | .ok t => ⟨.ok t, [], 1⟩
    | .error e =>
      if rateLimitSignal e && decide (attempt < maxRetries) then
        let w := (extractWaitTime e).getD
          (min (baseRetryDelay * 2 ^ attempt) maxRetryDelay)
        let r := execAttempts backend maxRetries fuel (attempt + 1)
        ⟨r.outcome, w :: r.sleeps, r.attemptsMade + 1⟩
      else if timeoutSignal e && decide (attempt < maxRetries) then
        let r := execAttempts backend maxRetries fuel (attempt + 1)
        ⟨r.outcome, 5 :: r.sleeps, r.attemptsMade + 1⟩
      else if attempt == maxRetries then ⟨.error e, [], 1⟩
      else
        let r := execAttempts backend maxRetries fuel (attempt + 1)
        ⟨r.outcome, 2 :: r.sleeps, r.attemptsMade + 1⟩

/-- `_execute_single_agent_with_retry` with the configured
`max_retries = 3`: the loop runs over `range(4)` starting at attempt 0. -/
def execSingleAgentWithRetry
    (backend : Nat → Except (List Char) (List Char)) : DispatchTrace :=
  execAttempts backend maxRetriesDefault (maxRetriesDefault + 1) 0

/-- The inter-attempt delay the spec claims for a rate-limited attempt:
the parsed wait time plus a 1-second buffer, else the capped exponential
backoff. -/
def claimedWait (e : List Char) (attempt : Nat) : Nat :=
  match searchWait (lowerAll e) with
  | some n => n + 1
  | none => min (5 * 2 ^ attempt) 60

theorem extractWaitTime_getD_eq_claimedWait (e : List Char) (a : Nat) :
    (extractWaitTime e).getD (min (baseRetryDelay * 2 ^ a) maxRetryDelay) =
      claimedWait e a := by
  unfold extractWaitTime claimedWait baseRetryDelay maxRetryDelay
  cases searchWait (lowerAll e) <;> rfl

theorem execAttempts_ok (backend : Nat → Except (List Char) (List Char))
    (maxR fuel attempt : Nat) (t : List Char)
    (hb : backend attempt = .ok t) :
    execAttempts backend maxR (fuel + 1) attempt = ⟨.ok t, [], 1⟩ := by
  simp [execAttempts, hb]

theorem execAttempts_rate (backend : Nat → Except (List Char) (List Char))
    (maxR fuel attempt : Nat) (e : List Char)
    (hb : backend attempt = .error e) (hr : rateLimitSignal e = true)
    (hlt : attempt < maxR) :
    execAttempts backend maxR (fuel + 1) attempt =
      ⟨(execAttempts backend maxR fuel (attempt + 1)).outcome,
       claimedWait e attempt ::
         (execAttempts backend maxR fuel (attempt + 1)).sleeps,
       (execAttempts backend maxR fuel (attempt + 1)).attemptsMade + 1⟩ := by
  simp [execAttempts, hb, hr, hlt, extractWaitTime_getD_eq_claimedWait]

theorem execAttempts_last (backend : Nat → Except (List Char) (List Char))
    (maxR fuel : Nat) (e : List Char) (hb : backend maxR = .error e) :
    execAttempts backend maxR (fuel + 1) maxR = ⟨.error e, [], 1⟩ := by
  simp [execAttempts, hb]

theorem execAttempts_err_outcome
    (backend : Nat → Except (List Char) (List Char))
    (maxR fuel attempt : Nat) (e : List Char)
    (hb : backend attempt = .error e) (hlt : attempt < maxR) :
    (execAttempts backend maxR (fuel + 1) attempt).outcome =
      (execAttempts backend maxR fuel (attempt + 1)).outcome := by
  have hne : ¬ attempt = maxR := by omega
  cases hrl : rateLimitSignal e <;> cases hto : timeoutSignal e <;>
    simp [execAttempts, hb, hlt, hrl, hto, hne]

theorem execAttempts_attempts_le
    (backend : Nat → Except (List Char) (List Char)) (maxR : Nat) :
    ∀ fuel attempt,
      (execAttempts backend maxR fuel attempt).attemptsMade ≤ fuel := by
  intro fuel
  induction fuel with
  | zero => intro attempt; simp [execAttempts]
  | succ n ih =>
    intro attempt
    cases hb : backend attempt with
    | ok t => simp [execAttempts, hb]
    | error e =>
      simp only [execAttempts, hb]
      split_ifs <;>
        simp only [] <;>
        first
          | exact Nat.succ_le_succ (ih (attempt + 1))
          | exact Nat.succ_le_succ (Nat.zero_le n)

/- ------------------------------------------------------------------
   C3 — retry count and backoff schedule for rate-limited backends
   ------------------------------------------------------------------ -/

/-- All-rate-limited backend used in the C3 witness. -/
def rlFailBackend : Nat → Except (List Char) (List Char) :=
  fun _ => .error "rate_limit_exceeded".data

/-- Backend rate-limited on attempts 0 and 1, succeeding on attempt 2. -/
def rlScenarioBackend : Nat → Except (List Char) (List Char) :=
  fun i => if i < 2 then .error "rate_limit_exceeded".data
           else .ok "answer".data

/-- C3: (i) every dispatch makes at most `max_retries + 1 = 4` backend
attempts; (ii) against a backend that keeps failing rate-limited, exactly
4 attempts are made and each retry is preceded by a sleep of the parsed
wait time plus a 1-second buffer, or `min(5·2^attempt, 60)` when nothing
parses; (iii) rate-limited on attempts 0 and 1 with no parsable wait time
and success on attempt 2, the successful text is returned after sleeps of
5 and then 10 seconds. -/
theorem c3_dispatch_retry_schedule :
    (∀ backend : Nat → Except (List Char) (List Char),
        (execSingleAgentWithRetry backend).attemptsMade ≤ 4) ∧
    (∀ (backend : Nat → Except (List Char) (List Char))
        (e : Nat → List Char),
        (∀ i, i ≤ 3 → backend i = Except.error (e i)) →
        (∀ i, i ≤ 3 → rateLimitSignal (e i) = true) →
        (execSingleAgentWithRetry backend).attemptsMade = 4 ∧
        (execSingleAgentWithRetry backend).sleeps =
          [claimedWait (e 0) 0, claimedWait (e 1) 1, claimedWait (e 2) 2]) ∧
    (∀ (backend : Nat → Except (List Char) (List Char)) (t e01 : List Char),
        backend 0 = Except.error e01 → backend 1 = Except.error e01 →
        backend 2 = Except.ok t →
        rateLimitSignal e01 = true → searchWait (lowerAll e01) = none →
        (execSingleAgentWithRetry backend).outcome = Except.ok t ∧
        (execSingleAgentWithRetry backend).sleeps = [5, 10] ∧
        (execSingleAgentWithRetry backend).attemptsMade = 3) := by
  refine ⟨fun backend => execAttempts_attempts_le backend 3 4 0, ?_, ?_⟩
  · intro backend e hall hrl
    have E0 : execAttempts backend 3 4 0 =
        ⟨(execAttempts backend 3 3 1).outcome,
         claimedWait (e 0) 0 :: (execAttempts backend 3 3 1).sleeps,
         (execAttempts backend 3 3 1).attemptsMade + 1⟩ :=
      execAttempts_rate backend 3 3 0 (e 0) (hall 0 (by omega))
        (hrl 0 (by omega)) (by omega)
    have E1 : execAttempts backend 3 3 1 =
        ⟨(execAttempts backend 3 2 2).outcome,
         claimedWait (e 1) 1 :: (execAttempts backend 3 2 2).sleeps,
         (execAttempts backend 3 2 2).attemptsMade + 1⟩ :=
      execAttempts_rate backend 3 2 1 (e 1) (hall 1 (by omega))
        (hrl 1 (by omega)) (by omega)
    have E2 : execAttempts backend 3 2 2 =
        ⟨(execAttempts backend 3 1 3).outcome,
         claimedWait (e 2) 2 :: (execAttempts backend 3 1 3).sleeps,
         (execAttempts backend 3 1 3).attemptsMade + 1⟩ :=
      execAttempts_rate backend 3 1 2 (e 2) (hall 2 (by omega))
        (hrl 2 (by omega)) (by omega)
    have E3 : execAttempts backend 3 1 3 = ⟨.error (e 3), [], 1⟩ :=
      execAttempts_last backend 3 0 (e 3) (hall 3 (by omega))
    have hfull : execSingleAgentWithRetry backend =
        ⟨Except.error (e 3),
         [claimedWait (e 0) 0, claimedWait (e 1) 1, claimedWait (e 2) 2],
         4⟩ := by
      show execAttempts backend 3 4 0 = _
      rw [E0, E1, E2, E3]
    rw [hfull]
    exact ⟨rfl, rfl⟩
  · intro backend t e01 hb0 hb1 hb2 hrl hsw
    have hw0 : claimedWait e01 0 = 5 := by
      unfold claimedWait
      rw [hsw]
      decide
    have hw1 : claimedWait e01 1 = 10 := by
      unfold claimedWait
      rw [hsw]
      decide
    have E0 : execAttempts backend 3 4 0 =
        ⟨(execAttempts backend 3 3 1).outcome,
         claimedWait e01 0 :: (execAttempts backend 3 3 1).sleeps,
         (execAttempts backend 3 3 1).attemptsMade + 1⟩ :=
      execAttempts_rate backend 3 3 0 e01 hb0 hrl (by omega)
    have E1 : execAttempts backend 3 3 1 =
        ⟨(execAttempts backend 3 2 2).outcome,
         claimedWait e01 1 :: (execAttempts backend 3 2 2).sleeps,
         (execAttempts backend 3 2 2).attemptsMade + 1⟩ :=
      execAttempts_rate backend 3 2 1 e01 hb1 hrl (by omega)
    have E2 : execAttempts backend 3 2 2 = ⟨.ok t, [], 1⟩ :=
      execAttempts_ok backend 3 1 2 t hb2
    have hfull : execSingleAgentWithRetry backend =
        ⟨Except.ok t, [5, 10], 3⟩ := by
      show execAttempts backend 3 4 0 = _
      rw [E0, E1, E2, hw0, hw1]
    rw [hfull]
    exact ⟨rfl, rfl, rfl⟩

/-- C3 witness: instantiations of the second and third conjuncts of
`c3_dispatch_retry_schedule` at concrete backends. -/
theorem c3_dispatch_retry_schedule_witness :
    ((execSingleAgentWithRetry rlFailBackend).attemptsMade = 4 ∧
     (execSingleAgentWithRetry rlFailBackend).sleeps =
       [claimedWait "rate_limit_exceeded".data 0,
        claimedWait "rate_limit_exceeded".data 1,
        claimedWait "rate_limit_exceeded".data 2]) ∧
    ((execSingleAgentWithRetry rlScenarioBackend).outcome =
        Except.ok "answer".data ∧
     (execSingleAgentWithRetry rlScenarioBackend).sleeps = [5, 10] ∧
     (execSingleAgentWithRetry rlScenarioBackend).attemptsMade = 3) :=
  ⟨c3_dispatch_retry_schedule.2.1 rlFailBackend
      (fun _ => "rate_limit_exceeded".data)
      (fun _ _ => rfl)
      (fun _ _ =>
        (by decide : rateLimitSignal "rate_limit_exceeded".data = true)),
   c3_dispatch_retry_schedule.2.2 rlScenarioBackend
      "answer".data "rate_limit_exceeded".data
      (by decide) (by decide) (by decide) (by decide) (by decide)⟩

/- ------------------------------------------------------------------
   C7 — what happens when all attempts fail
   ------------------------------------------------------------------ -/

/-- C7 counterexample: a backend failing all four attempts with `"boom"`
makes the dispatcher re-raise `"boom"` (line 544 `raise e`), not the
generic `"Max retries exceeded"` of line 549, which is unreachable. -/
theorem c7_exhausted_counterexample :
    (execSingleAgentWithRetry (fun _ => Except.error "boom".data)).outcome =
      Except.error "boom".data ∧
    "boom".data ≠ maxRetriesErrorText := by decide

/-- C7 amended: when all `max_retries + 1 = 4` attempts fail, the
dispatcher propagates the error of the last attempt (the final
`raise e`); the generic `"Max retries exceeded"` raise after the loop is
dead code. -/
theorem c7_exhausted_amended (backend : Nat → Except (List Char) (List Char))
    (e : Nat → List Char)
    (hall : ∀ i, i ≤ 3 → backend i = Except.error (e i)) :
    (execSingleAgentWithRetry backend).outcome = Except.error (e 3) := by
  have O0 : (execAttempts backend 3 4 0).outcome =
      (execAttempts backend 3 3 1).outcome :=
    execAttempts_err_outcome backend 3 3 0 (e 0) (hall 0 (by omega)) (by omega)
  have O1 : (execAttempts backend 3 3 1).outcome =
      (execAttempts backend 3 2 2).outcome :=
    execAttempts_err_outcome backend 3 2 1 (e 1) (hall 1 (by omega)) (by omega)
  have O2 : (execAttempts backend 3 2 2).outcome =
      (execAttempts backend 3 1 3).outcome :=
    execAttempts_err_outcome backend 3 1 2 (e 2) (hall 2 (by omega)) (by omega)
  have E3 : execAttempts backend 3 1 3 = ⟨.error (e 3), [], 1⟩ :=
    execAttempts_last backend 3 0 (e 3) (hall 3 (by omega))
  show (execAttempts backend 3 4 0).outcome = _
  rw [O0, O1, O2, E3]

/-- C7 witness: `c7_exhausted_amended` applied to a backend failing every
attempt with `"backend down"`. -/
theorem c7_exhausted_amended_witness :
    (execSingleAgentWithRetry
        (fun _ => Except.error "backend down".data)).outcome =
      Except.error "backend down".data :=
  c7_exhausted_amended (fun _ => Except.error "backend down".data)
    (fun _ => "backend down".data) (fun _ _ => rfl)

/- ------------------------------------------------------------------
   LegalMindOrchestrator._chunk_response
   (src/agents/orchestrator.py lines 576-620)
   ------------------------------------------------------------------ -/

def nlnl : List Char := ['\n', '\n']
def dotSpace : List Char := ['.', ' ']
def ellipsisLit : List Char := "...".data

/-- One iteration of the sentence loop (lines 597-607); state is
`(chunks, current_chunk)`.  When over the limit: flush a non-empty
current chunk (stripped) and restart from this sentence, or hard-cut the
sentence via the Python slice `sentence[:max_length-20] + "..."`. -/
def sentStep (maxLen : Nat) (st : List (List Char) × List Char)
    (s : List Char) : List (List Char) × List Char :=
  if maxLen < st.2.length + s.length + 2 then
    if st.2.isEmpty then
      (st.1 ++ [pySliceTo s ((maxLen : Int) - 20) ++ ellipsisLit], [])
    else (st.1 ++ [pyStrip st.2], s ++ dotSpace)
  else (st.1, st.2 ++ s ++ dotSpace)

/-- One iteration of the paragraph loop (lines 588-609): accumulate the
paragraph, or flush the current chunk, or fall back to sentence
splitting when the paragraph alone is too long. -/
def paraStep (maxLen : Nat) (st : List (List Char) × List Char)
    (p : List Char) : List (List Char) × List Char :=
  if maxLen < st.2.length + p.length + 2 then
    if st.2.isEmpty then (pySplit dotSpace p).foldl (sentStep maxLen) st
    else (st.1 ++ [pyStrip st.2], p ++ nlnl)
  else (st.1, st.2 ++ p ++ nlnl)

/-- The trailing flush of lines 611-612: append the stripped current
chunk when it is non-empty. -/
def finalFlush (st : List (List Char) × List Char) : List (List Char) :=
  if st.2.isEmpty then st.1 else st.1 ++ [pyStrip st.2]

/-- The chunk list built by `_chunk_response` (lines 582-612), including
the final flush of a non-empty current chunk. -/
def buildChunks (response : List Char) (maxLen : Nat) : List (List Char) :=
  finalFlush ((pySplit nlnl response).foldl (paraStep maxLen) ([], []))

/-- The continuation notice appended to the first chunk (line 617);
the page emoji of the source is omitted. -/
def partNotice (n : Nat) : List Char :=
  ("\n\n**This is part 1 of " ++ toString n ++
   ".** Due to length limits, please ask for the next part to continue.").data

/-- `LegalMindOrchestrator._chunk_response`: short responses are returned
unchanged; otherwise the paragraph/sentence chunking runs and, when it
produced at least two chunks, the first chunk plus the continuation
notice is returned — and otherwise the original response (line 620). -/
def chunkResponse (response : List Char) (maxLen : Nat) : List Char :=
  if response.length ≤ maxLen then response
  else
    let chunks := buildChunks response maxLen
    if 1 < chunks.length then chunks.headI ++ partNotice chunks.length
    else response

/- Invariant: while no chunk has been flushed the current chunk fits the
limit, and once one has, the first flushed chunk fits the limit. -/
def ChunkInv (maxLen : Nat) (st : List (List Char) × List Char) : Prop :=
  (st.1 = [] → st.2.length ≤ maxLen) ∧
  ∀ h t, st.1 = h :: t → h.length ≤ maxLen

theorem length_dropWhile_le' (p : Char → Bool) (l : List Char) :
    (l.dropWhile p).length ≤ l.length := by
  induction l with
  | nil => simp
  | cons c rest ih =>
    by_cases hc : p c
    · simp only [List.dropWhile_cons, hc, if_true]
      exact le_trans ih (Nat.le_succ _)
    · simp [List.dropWhile_cons, hc]

theorem pyStrip_length_le (l : List Char) : (pyStrip l).length ≤ l.length := by
  unfold pyStrip pyRstrip pyLstrip
  calc ((l.dropWhile Char.isWhitespace).reverse.dropWhile
          Char.isWhitespace).reverse.length
      = ((l.dropWhile Char.isWhitespace).reverse.dropWhile
          Char.isWhitespace).length := by simp
    _ ≤ (l.dropWhile Char.isWhitespace).reverse.length :=
        length_dropWhile_le' _ _
    _ = (l.dropWhile Char.isWhitespace).length := by simp
    _ ≤ l.length := length_dropWhile_le' _ _

theorem pySliceTo_cut_length_le (s : List Char) (maxLen : Nat)
    (h20 : 20 ≤ maxLen) :
    (pySliceTo s ((maxLen : Int) - 20) ++ ellipsisLit).length ≤ maxLen := by
  unfold pySliceTo
  rw [if_pos (by omega : (0 : Int) ≤ (maxLen : Int) - 20)]
  have htake : (s.take ((maxLen : Int) - 20).toNat).length ≤ maxLen - 20 := by
    have : ((maxLen : Int) - 20).toNat = maxLen - 20 := by omega
    rw [this]
    simp [List.length_take]
  have hell : ellipsisLit.length = 3 := by decide
  rw [List.length_append, hell]
  omega

theorem chunkInv_sentStep (maxLen : Nat) (h20 : 20 ≤ maxLen)
    (st : List (List Char) × List Char) (s : List Char)
    (hinv : ChunkInv maxLen st) :
    ChunkInv maxLen (sentStep maxLen st s) := by
  obtain ⟨h1, h2⟩ := hinv
  unfold sentStep
  split_ifs with hov hemp
  · refine ⟨fun hc => absurd hc (by simp), fun h t hht => ?_⟩
    cases hst : st.1 with
    | nil =>
      rw [hst] at hht
      simp only [List.nil_append, List.cons.injEq] at hht
      rw [← hht.1]
      exact pySliceTo_cut_length_le s maxLen h20
    | cons c cs =>
      rw [hst, List.cons_append, List.cons.injEq] at hht
      rw [← hht.1]
      exact h2 c cs hst
  · refine ⟨fun hc => absurd hc (by simp), fun h t hht => ?_⟩
    cases hst : st.1 with
    | nil =>
      rw [hst] at hht
      simp only [List.nil_append, List.cons.injEq] at hht
      rw [← hht.1]
      exact le_trans (pyStrip_length_le st.2) (h1 hst)
    | cons c cs =>
      rw [hst, List.cons_append, List.cons.injEq] at hht
      rw [← hht.1]
      exact h2 c cs hst
  · refine ⟨fun hc => ?_, h2⟩
    have := h1 hc
    have hds : dotSpace.length = 2 := by decide
    rw [List.append_assoc, List.length_append, List.length_append, hds]
    omega

theorem chunkInv_foldl_sent (maxLen : Nat) (h20 : 20 ≤ maxLen) :
    ∀ (l : List (List Char)) (st : List (List Char) × List Char),
      ChunkInv maxLen st → ChunkInv maxLen (l.foldl (sentStep maxLen) st) := by
  intro l
  induction l with
  | nil => intro st hinv; exact hinv
  | cons x xs ih =>
    intro st hinv
    exact ih (sentStep maxLen st x) (chunkInv_sentStep maxLen h20 st x hinv)

theorem chunkInv_paraStep (maxLen : Nat) (h20 : 20 ≤ maxLen)
    (st : List (List Char) × List Char) (p : List Char)
    (hinv : ChunkInv maxLen st) :
    ChunkInv maxLen (paraStep maxLen st p) := by
  obtain ⟨h1, h2⟩ := hinv
  unfold paraStep
  split_ifs with hov hemp
  · exact chunkInv_foldl_sent maxLen h20 (pySplit dotSpace p) st ⟨h1, h2⟩
  · refine ⟨fun hc => absurd hc (by simp), fun h t hht => ?_⟩
    cases hst : st.1 with
    | nil =>
      rw [hst] at hht
      simp only [List.nil_append, List.cons.injEq] at hht
      rw [← hht.1]
      exact le_trans (pyStrip_length_le st.2) (h1 hst)
    | cons c cs =>
      rw [hst, List.cons_append, List.cons.injEq] at hht
      rw [← hht.1]
      exact h2 c cs hst
  · refine ⟨fun hc => ?_, h2⟩
    have := h1 hc
    have hds : nlnl.length = 2 := by decide
    rw [List.append_assoc, List.length_append, List.length_append, hds]
    omega

theorem chunkInv_foldl_para (maxLen : Nat) (h20 : 20 ≤ maxLen) :
    ∀ (l : List (List Char)) (st : List (List Char) × List Char),
      ChunkInv maxLen st → ChunkInv maxLen (l.foldl (paraStep maxLen) st) := by
  intro l
  induction l with
  | nil => intro st hinv; exact hinv
  | cons x xs ih =>
    intro st hinv
    exact ih (paraStep maxLen st x) (chunkInv_paraStep maxLen h20 st x hinv)

theorem finalFlush_head_le (maxLen : Nat)
    (st : List (List Char) × List Char) (hinv : ChunkInv maxLen st) :
    ∀ h t, finalFlush st = h :: t → h.length ≤ maxLen := by
  intro h t
  unfold finalFlush
  split_ifs with he
  · exact hinv.2 h t
  · intro hbc
    cases hs1 : st.1 with
    | nil =>
      rw [hs1] at hbc
      simp only [List.nil_append, List.cons.injEq] at hbc
      rw [← hbc.1]
      exact le_trans (pyStrip_length_le st.2) (hinv.1 hs1)
    | cons c cs =>
      rw [hs1, List.cons_append, List.cons.injEq] at hbc
      rw [← hbc.1]
      exact hinv.2 c cs hs1

theorem buildChunks_head_le (response : List Char) (maxLen : Nat)
    (h20 : 20 ≤ maxLen) :
    ∀ h t, buildChunks response maxLen = h :: t → h.length ≤ maxLen := by
  have hinv := chunkInv_foldl_para maxLen h20 (pySplit nlnl response) ([], [])
    ⟨fun _ => by simp, fun a b hab => by simp at hab⟩
  exact finalFlush_head_le maxLen _ hinv

/- ------------------------------------------------------------------
   Verbatim-prefix property of the first chunk: joining the split parts
   reconstructs the input, so the accumulated current chunk is always a
   literal prefix of the text until the first flush.
   ------------------------------------------------------------------ -/

theorem intercalate_single (sep a : List Char) :
    List.intercalate sep [a] = a := by
  simp [List.intercalate]

theorem intercalate_cons_ne_nil (sep a : List Char) (l : List (List Char))
    (hl : l ≠ []) :
    List.intercalate sep (a :: l) = a ++ sep ++ List.intercalate sep l := by
  cases l with
  | nil => exact absurd rfl hl
  | cons b bs => simp [List.intercalate, List.append_assoc]

theorem pySplitAux_ne_nil (sep : List Char) :
    ∀ fuel hay acc, pySplitAux sep fuel hay acc ≠ [] := by
  intro fuel
  induction fuel with
  | zero => intro hay acc; simp [pySplitAux]
  | succ n ih =>
    intro hay acc
    cases hay with
    | nil => simp [pySplitAux]
    | cons c rest =>
      by_cases hpre : startsWithSeq sep (c :: rest)
      · simp [pySplitAux, hpre]
      · simpa [pySplitAux, hpre] using ih rest (c :: acc)

theorem pySplit_ne_nil (sep hay : List Char) : pySplit sep hay ≠ [] :=
  pySplitAux_ne_nil sep _ hay []

theorem pySplitAux_join (sep : List Char) :
    ∀ fuel hay acc,
      List.intercalate sep (pySplitAux sep fuel hay acc) =
        acc.reverse ++ hay := by
  intro fuel
  induction fuel with
  | zero => intro hay acc; simp [pySplitAux, intercalate_single]
  | succ n ih =>
    intro hay acc
    cases hay with
    | nil => simp [pySplitAux, intercalate_single]
    | cons c rest =>
      by_cases hpre : startsWithSeq sep (c :: rest)
      · obtain ⟨t, ht⟩ := (startsWithSeq_iff sep (c :: rest)).mp hpre
        simp only [pySplitAux, hpre, if_true]
        rw [intercalate_cons_ne_nil _ _ _ (pySplitAux_ne_nil sep n _ []),
          ih _ [], ht, List.drop_left]
        simp [List.append_assoc]
      · simp only [pySplitAux, hpre, if_false, Bool.false_eq_true]
        rw [ih rest (c :: acc)]
        simp

theorem pySplit_join (sep hay : List Char) :
    List.intercalate sep (pySplit sep hay) = hay := by
  simpa using pySplitAux_join sep (hay.length + 1) hay []

theorem pySliceTo_sub20_eq_take (s : List Char) (maxLen : Nat)
    (h20 : 20 ≤ maxLen) :
    pySliceTo s ((maxLen : Int) - 20) = s.take (maxLen - 20) := by
  unfold pySliceTo
  rw [if_pos (by omega : (0 : Int) ≤ (maxLen : Int) - 20)]
  congr 1
  omega

theorem pyRstrip_append_nlnl (y : List Char) :
    pyRstrip (y ++ nlnl) = pyRstrip y := by
  have h : ('\n').isWhitespace = true := by decide
  simp [pyRstrip, nlnl, List.reverse_append, List.dropWhile_cons, h]

theorem pyStrip_append_nlnl (x : List Char) :
    pyStrip (x ++ nlnl) = pyStrip x := by
  unfold pyStrip pyLstrip
  rw [dropWhile_append_list]
  split_ifs with h
  · rw [List.isEmpty_iff.mp h]
    have hn : nlnl.dropWhile Char.isWhitespace = [] := by decide
    rw [hn]
  · exact pyRstrip_append_nlnl _

/-- The verbatim-content property of a returned first segment `seg`: it
is the `strip` of a literal prefix of the text, or a literal prefix of
the text hard-truncated with the documented ellipsis. -/
def VerbAfter (text seg : List Char) : Prop :=
  ∃ p, p <+: text ∧ (seg = pyStrip p ∨ seg = p ++ ellipsisLit)

theorem sentFold_verb (maxLen : Nat) (text p : List Char)
    (h20 : 20 ≤ maxLen) :
    ∀ (ss : List (List Char)) (st : List (List Char) × List Char),
      (∀ h t, st.1 = h :: t → VerbAfter text h) →
      (st.1 = [] → p <+: text ∧
        ((st.2 ++ List.intercalate dotSpace ss = p ∧ ss ≠ []) ∨
         (ss = [] ∧ st.2 = p ++ dotSpace))) →
      (∀ h t, (ss.foldl (sentStep maxLen) st).1 = h :: t → VerbAfter text h) ∧
      ((ss.foldl (sentStep maxLen) st).1 = [] →
        (ss.foldl (sentStep maxLen) st).2 = p ++ dotSpace) := by
  intro ss
  induction ss with
  | nil =>
    intro st hH hJ
    refine ⟨hH, fun h1 => ?_⟩
    rcases (hJ h1).2 with ⟨-, hne⟩ | ⟨-, h2⟩
    · exact absurd rfl hne
    · exact h2
  | cons s ss' ih =>
    intro st hH hJ
    rw [List.foldl_cons]
    by_cases hov : maxLen < st.2.length + s.length + 2
    · by_cases hemp : st.2.isEmpty
      · rw [show sentStep maxLen st s =
            (st.1 ++ [pySliceTo s ((maxLen : Int) - 20) ++ ellipsisLit], [])
            from by simp [sentStep, hov, hemp]]
        refine ih _ ?_ ?_
        · intro h t hht
          cases hst : st.1 with
          | nil =>
            rw [hst, List.nil_append] at hht
            obtain ⟨hh, -⟩ := List.cons.inj hht
            obtain ⟨hp, hdis⟩ := hJ hst
            rcases hdis with ⟨hjoin, -⟩ | ⟨habs, -⟩
            · have hst2 : st.2 = [] := List.isEmpty_iff.mp hemp
              rw [hst2, List.nil_append] at hjoin
              have hsp : s <+: p := by
                cases ss' with
                | nil =>
                  rw [intercalate_single] at hjoin
                  rw [← hjoin]
                | cons b bs =>
                  rw [intercalate_cons_ne_nil _ _ _ (by simp)] at hjoin
                  exact ⟨dotSpace ++ List.intercalate dotSpace (b :: bs),
                    by simpa [List.append_assoc] using hjoin⟩
              rw [← hh, pySliceTo_sub20_eq_take s maxLen h20]
              exact ⟨s.take (maxLen - 20),
                (List.take_prefix _ _).trans (hsp.trans hp), Or.inr rfl⟩
            · exact absurd habs (by simp)
          | cons c cs =>
            rw [hst, List.cons_append] at hht
            obtain ⟨hh, -⟩ := List.cons.inj hht
            rw [← hh]
            exact hH c cs hst
        · intro h1
          exact absurd h1 (by simp)
      · rw [show sentStep maxLen st s = (st.1 ++ [pyStrip st.2], s ++ dotSpace)
            from by simp [sentStep, hov, hemp]]
        refine ih _ ?_ ?_
        · intro h t hht
          cases hst : st.1 with
          | nil =>
            rw [hst, List.nil_append] at hht
            obtain ⟨hh, -⟩ := List.cons.inj hht
            obtain ⟨hp, hdis⟩ := hJ hst
            rcases hdis with ⟨hjoin, -⟩ | ⟨habs, -⟩
            · have hsp : st.2 <+: p :=
                ⟨List.intercalate dotSpace (s :: ss'), hjoin⟩
              rw [← hh]
              exact ⟨st.2, hsp.trans hp, Or.inl rfl⟩
            · exact absurd habs (by simp)
          | cons c cs =>
            rw [hst, List.cons_append] at hht
            obtain ⟨hh, -⟩ := List.cons.inj hht
            rw [← hh]
            exact hH c cs hst
        · intro h1
          exact absurd h1 (by simp)
    · rw [show sentStep maxLen st s = (st.1, st.2 ++ s ++ dotSpace)
          from by simp [sentStep, hov]]
      refine ih _ (fun h t hht => hH h t hht) ?_
      intro h1
      obtain ⟨hp, hdis⟩ := hJ h1
      refine ⟨hp, ?_⟩
      rcases hdis with ⟨hjoin, -⟩ | ⟨habs, -⟩
      · cases ss' with
        | nil =>
          right
          refine ⟨rfl, ?_⟩
          rw [intercalate_single] at hjoin
          rw [← hjoin]
        | cons b bs =>
          left
          refine ⟨?_, by simp⟩
          rw [intercalate_cons_ne_nil _ _ _ (by simp)] at hjoin
          simp only [List.append_assoc] at hjoin ⊢
          exact hjoin
      · exact absurd habs (by simp)

theorem paraFold_verb (maxLen : Nat) (text : List Char) (h20 : 20 ≤ maxLen) :
    ∀ (ps : List (List Char)) (st : List (List Char) × List Char),
      ChunkInv maxLen st →
      (∀ h t, st.1 = h :: t → VerbAfter text h) →
      (st.1 = [] →
        ((st.2 ++ List.intercalate nlnl ps = text ∧ ps ≠ []) ∨
         (ps = [] ∧ st.2 = text ++ nlnl))) →
      (∀ h t, (ps.foldl (paraStep maxLen) st).1 = h :: t → VerbAfter text h) ∧
      ((ps.foldl (paraStep maxLen) st).1 = [] →
        (ps.foldl (paraStep maxLen) st).2 = text ++ nlnl) := by
  intro ps
  induction ps with
  | nil =>
    intro st hInv hH hJ
    refine ⟨hH, fun h1 => ?_⟩
    rcases hJ h1 with ⟨-, hne⟩ | ⟨-, h2⟩
    · exact absurd rfl hne
    · exact h2
  | cons p ps' ih =>
    intro st hInv hH hJ
    rw [List.foldl_cons]
    by_cases hov : maxLen < st.2.length + p.length + 2
    · by_cases hemp : st.2.isEmpty
      · rw [show paraStep maxLen st p =
            (pySplit dotSpace p).foldl (sentStep maxLen) st
            from by simp [paraStep, hov, hemp]]
        have hst2 : st.2 = [] := List.isEmpty_iff.mp hemp
        have hInv' : ChunkInv maxLen
            ((pySplit dotSpace p).foldl (sentStep maxLen) st) :=
          chunkInv_foldl_sent maxLen h20 _ st hInv
        have hJs : st.1 = [] → p <+: text ∧
            ((st.2 ++ List.intercalate dotSpace (pySplit dotSpace p) = p ∧
              pySplit dotSpace p ≠ []) ∨
             (pySplit dotSpace p = [] ∧ st.2 = p ++ dotSpace)) := by
          intro h1
          rcases hJ h1 with ⟨hjoin, -⟩ | ⟨hps, -⟩
          · have hp : p <+: text := by
              rw [hst2, List.nil_append] at hjoin
              cases ps' with
              | nil =>
                rw [intercalate_single] at hjoin
                rw [← hjoin]
              | cons b bs =>
                rw [intercalate_cons_ne_nil _ _ _ (by simp)] at hjoin
                exact ⟨nlnl ++ List.intercalate nlnl (b :: bs),
                  by simpa [List.append_assoc] using hjoin⟩
            refine ⟨hp, Or.inl ⟨?_, pySplit_ne_nil _ _⟩⟩
            rw [hst2, List.nil_append, pySplit_join]
          · exact absurd hps (by simp)
        have hsent := sentFold_verb maxLen text p h20 (pySplit dotSpace p)
          st hH hJs
        refine ih _ hInv' hsent.1 (fun h1 => ?_)
        exfalso
        have hlen := hInv'.1 h1
        rw [hsent.2 h1, List.length_append] at hlen
        have hds : dotSpace.length = 2 := by decide
        have hz : st.2.length = 0 := by rw [hst2]; rfl
        omega
      · rw [show paraStep maxLen st p = (st.1 ++ [pyStrip st.2], p ++ nlnl)
            from by simp [paraStep, hov, hemp]]
        refine ih _ ?_ ?_ ?_
        · have hi := chunkInv_paraStep maxLen h20 st p hInv
          rwa [show paraStep maxLen st p = (st.1 ++ [pyStrip st.2], p ++ nlnl)
            from by simp [paraStep, hov, hemp]] at hi
        · intro h t hht
          cases hst : st.1 with
          | nil =>
            rw [hst, List.nil_append] at hht
            obtain ⟨hh, -⟩ := List.cons.inj hht
            rcases hJ hst with ⟨hjoin, -⟩ | ⟨hps, -⟩
            · rw [← hh]
              exact ⟨st.2, ⟨List.intercalate nlnl (p :: ps'), hjoin⟩,
                Or.inl rfl⟩
            · exact absurd hps (by simp)
          | cons c cs =>
            rw [hst, List.cons_append] at hht
            obtain ⟨hh, -⟩ := List.cons.inj hht
            rw [← hh]
            exact hH c cs hst
        · intro h1
          exact absurd h1 (by simp)
    · rw [show paraStep maxLen st p = (st.1, st.2 ++ p ++ nlnl)
          from by simp [paraStep, hov]]
      refine ih _ ?_ (fun h t hht => hH h t hht) ?_
      · have hi := chunkInv_paraStep maxLen h20 st p hInv
        rwa [show paraStep maxLen st p = (st.1, st.2 ++ p ++ nlnl)
          from by simp [paraStep, hov]] at hi
      · intro h1
        rcases hJ h1 with ⟨hjoin, -⟩ | ⟨hps, -⟩
        · cases ps' with
          | nil =>
            right
            refine ⟨rfl, ?_⟩
            rw [intercalate_single] at hjoin
            rw [← hjoin]
          | cons b bs =>
            left
            refine ⟨?_, by simp⟩
            rw [intercalate_cons_ne_nil _ _ _ (by simp)] at hjoin
            simp only [List.append_assoc] at hjoin ⊢
            exact hjoin
        · exact absurd hps (by simp)

theorem buildChunks_head_verb (text : List Char) (maxLen : Nat)
    (h20 : 20 ≤ maxLen) :
    ∀ h t, buildChunks text maxLen = h :: t → VerbAfter text h := by
  have hfold := paraFold_verb maxLen text h20 (pySplit nlnl text) ([], [])
    ⟨fun _ => by simp, fun a b hab => by simp at hab⟩
    (fun h t hc => absurd hc (by simp))
    (fun _ => Or.inl ⟨by simpa using pySplit_join nlnl text,
      pySplit_ne_nil nlnl text⟩)
  intro h t
  unfold buildChunks finalFlush
  split_ifs with he
  · exact hfold.1 h t
  · intro hbc
    cases hs1 : ((pySplit nlnl text).foldl (paraStep maxLen) ([], [])).1 with
    | nil =>
      rw [hs1, List.nil_append] at hbc
      obtain ⟨hh, -⟩ := List.cons.inj hbc
      have h2 := hfold.2 hs1
      rw [← hh, h2, pyStrip_append_nlnl]
      exact ⟨text, List.prefix_refl text, Or.inl rfl⟩
    | cons c cs =>
      rw [hs1, List.cons_append] at hbc
      obtain ⟨hh, -⟩ := List.cons.inj hbc
      rw [← hh]
      exact hfold.1 c cs hs1

/- ------------------------------------------------------------------
   C9 — chunking is the identity below the length threshold
   ------------------------------------------------------------------ -/

/-- C9: when the response length is at most `max_length`,
`_chunk_response` returns the response unchanged (line 578-579), with no
continuation notice. -/
theorem c9_chunk_identity_below_threshold (text : List Char) (maxLen : Nat)
    (h : text.length ≤ maxLen) : chunkResponse text maxLen = text := by
  simp [chunkResponse, h]

/-- C9 witness: `c9_chunk_identity_below_threshold` at a short text. -/
theorem c9_chunk_identity_below_threshold_witness :
    chunkResponse "short answer".data 4000 = "short answer".data :=
  c9_chunk_identity_below_threshold "short answer".data 4000 (by decide)

/- ------------------------------------------------------------------
   C2 — what the chunker returns for over-length responses
   ------------------------------------------------------------------ -/

/-- C2 counterexample: a 31-character response with no paragraph or
sentence break, chunked with `maxLength = 30`.  The single over-long
sentence is cut with an ellipsis into `chunks`, but since that leaves
only one chunk, line 620 returns the original over-length response with
no truncation at all — longer than `maxLength` and with no ellipsis,
contradicting the claimed bound. -/
theorem c2_chunk_counterexample :
    chunkResponse (List.replicate 31 'a') 30 = List.replicate 31 'a' ∧
    30 < (chunkResponse (List.replicate 31 'a') 30).length ∧
    (chunkResponse (List.replicate 31 'a') 30).count '.' = 0 := by decide

/-- C2 amended: `_chunk_response` returns only a first segment.  A text
at most `maxLength` long is returned unchanged; an over-length text whose
paragraph/sentence splitting yields at most one chunk (e.g. a single
over-long sentence) is also returned unchanged — whole and untruncated,
with no ellipsis, contrary to the claimed bound.  Whenever the splitting
yields two or more chunks, the returned value is exactly the first chunk
followed by a "part 1 of N" continuation notice; that first chunk
(excluding the notice) is at most `maxLength` long (for `maxLength ≥
20`), and its content is preserved verbatim up to the truncation point:
it is the `strip` of a literal prefix of the text, or a literal prefix
hard-truncated with the documented ellipsis. -/
theorem c2_chunk_first_segment (text : List Char) (maxLen : Nat)
    (h20 : 20 ≤ maxLen) :
    (text.length ≤ maxLen → chunkResponse text maxLen = text) ∧
    (maxLen < text.length → (buildChunks text maxLen).length ≤ 1 →
      chunkResponse text maxLen = text) ∧
    (maxLen < text.length → 2 ≤ (buildChunks text maxLen).length →
      chunkResponse text maxLen =
        (buildChunks text maxLen).headI ++
          partNotice (buildChunks text maxLen).length ∧
      (buildChunks text maxLen).headI.length ≤ maxLen ∧
      VerbAfter text (buildChunks text maxLen).headI) := by
  refine ⟨fun h => by simp [chunkResponse, h], ?_, ?_⟩
  · intro hgt hle
    have hne : ¬ text.length ≤ maxLen := by omega
    have hc : ¬ 1 < (buildChunks text maxLen).length := by omega
    simp [chunkResponse, hne, hc]
  · intro hgt h2
    have hne : ¬ text.length ≤ maxLen := by omega
    have h1 : 1 < (buildChunks text maxLen).length := by omega
    refine ⟨by simp [chunkResponse, hne, h1], ?_, ?_⟩
    · cases hb : buildChunks text maxLen with
      | nil => rw [hb] at h2; simp at h2
      | cons hd tl =>
        simpa [hb] using buildChunks_head_le text maxLen h20 hd tl hb
    · cases hb : buildChunks text maxLen with
      | nil => rw [hb] at h2; simp at h2
      | cons hd tl =>
        simpa [hb] using buildChunks_head_verb text maxLen h20 hd tl hb

/-- Two-paragraph over-length sample used in the C2 witness. -/
def chunkSample : List Char :=
  ("aaaaaaaaaaaaaaa\n\nbbbbbbbbbbbbbbb").data

/-- C2 witness: `c2_chunk_first_segment` instantiated on all three
conjuncts — a short text (returned unchanged), a single over-long
sentence (returned unchanged although over-length), and a concrete
two-paragraph over-length text whose first chunk is returned with the
continuation notice, within the bound and verbatim-prefix property. -/
theorem c2_chunk_first_segment_witness :
    chunkResponse "ok".data 20 = "ok".data ∧
    chunkResponse (List.replicate 25 'b') 20 = List.replicate 25 'b' ∧
    (chunkResponse chunkSample 20 =
        (buildChunks chunkSample 20).headI ++
          partNotice (buildChunks chunkSample 20).length ∧
     (buildChunks chunkSample 20).headI.length ≤ 20 ∧
     VerbAfter chunkSample (buildChunks chunkSample 20).headI) :=
  ⟨(c2_chunk_first_segment "ok".data 20 (by decide)).1 (by decide),
   (c2_chunk_first_segment (List.replicate 25 'b') 20 (by decide)).2.1
     (by decide) (by decide),
   (c2_chunk_first_segment chunkSample 20 (by decide)).2.2
     (by decide) (by decide)⟩

/- ------------------------------------------------------------------
   LegalMindOrchestrator._generate_error_response
   (src/agents/orchestrator.py lines 622-664)
   Message texts are transcribed without the emoji and with contractions
   expanded; the branch structure and the embedded error excerpt are
   exactly those of the source.
   ------------------------------------------------------------------ -/

/-- The fixed rate-limit user message (lines 625-636). -/
def rateLimitUserMessage : List Char :=
  ("\n**System Temporarily Busy**\n\nI am currently experiencing high demand. This is a temporary issue that typically resolves within a few moments.\n\n**Please try:**\n1. Waiting 30 seconds and resending your query\n2. Breaking complex questions into smaller parts\n3. Asking one question at a time\n\nI apologize for the inconvenience and appreciate your patience!\n            ").data

/-- The fixed timeout user message (lines 638-650). -/
def timeoutUserMessage : List Char :=
  ("\n**Query Processing Timeout**\n\nYour query was quite complex and took longer than expected to process.\n\n**Please try:**\n1. Breaking your question into smaller, more specific parts\n2. Asking about one topic at a time\n3. Using more specific keywords in your query\n\nI am ready to help with more focused questions!\n            ").data

/-- Text of the generic message before `Error details:` interpolation
(lines 653-663). -/
def genericErrorPrefix : List Char :=
  ("\n**Processing Error**\n\nI encountered an unexpected error while processing your request.\n\n**What you can do:**\n1. Try rephrasing your question\n2. Break complex queries into simpler parts\n3. Contact support if the issue persists\n\nError details: ").data

/-- Text of the generic message after the interpolated error excerpt. -/
def genericErrorSuffix : List Char := "\n            ".data

/-- `_generate_error_response`: rate-limit and timeout errors map to
fixed texts; every other error maps to the generic text with the first
100 characters of the raw error interpolated (line 663). -/
def generateErrorResponse (error : List Char) : List Char :=
  if containsSub "rate_limit_exceeded".data (lowerAll error) then
    rateLimitUserMessage
  else if containsSub "timeout".data (lowerAll error) then
    timeoutUserMessage
  else
    genericErrorPrefix ++ error.take 100 ++
      (if 100 < error.length then ellipsisLit else []) ++ genericErrorSuffix

/- ------------------------------------------------------------------
   C8 — user-visible error responses
   ------------------------------------------------------------------ -/

/-- C8 counterexample: for the internal exception text `"boom"` the
generic categorized message embeds the raw exception text (its first 100
characters) via `Error details:`, so the returned text does contain the
raw exception text, contrary to the claim. -/
theorem c8_error_response_counterexample :
    containsSub "boom".data (generateErrorResponse "boom".data) = true ∧
    generateErrorResponse "boom".data ≠ rateLimitUserMessage ∧
    generateErrorResponse "boom".data ≠ timeoutUserMessage := by decide

/-- C8 amended: every internal error is converted to one of exactly three
categorized user messages — the fixed rate-limit text, the fixed timeout
text, or the generic text, the last embedding the first 100 characters of
the raw exception text (no stack trace, but raw text up to 100
characters). -/
theorem c8_error_response_categories (error : List Char) :
    generateErrorResponse error = rateLimitUserMessage ∨
    generateErrorResponse error = timeoutUserMessage ∨
    ∃ pre post, generateErrorResponse error = pre ++ error.take 100 ++ post := by
  unfold generateErrorResponse
  split_ifs with h1 h2 h3
  · exact Or.inl rfl
  · exact Or.inr (Or.inl rfl)
  · refine Or.inr (Or.inr
      ⟨genericErrorPrefix, ellipsisLit ++ genericErrorSuffix, ?_⟩)
    simp [List.append_assoc]
  · refine Or.inr (Or.inr ⟨genericErrorPrefix, genericErrorSuffix, ?_⟩)
    simp [List.append_assoc]

/- ------------------------------------------------------------------
   Agent types, multi-agent dispatch and synthesis
   (src/agents/orchestrator.py lines 26-31, 329-373, 828-856)
   ------------------------------------------------------------------ -/

/-- The `AgentType` enum (lines 26-31). -/
inductive AgentType where
  | policy_expert
  | news_monitor
  | document_analyzer
  | report_generator
  | orchestrator
  deriving Repr, DecidableEq

/-- `AgentResponse` (lines 46-53) restricted to the fields the dispatch
and synthesis logic branches on; the float `confidence`, `sources` and
`metadata` are not modelled. -/
structure AgentResponseM where
  agent_type : AgentType
  content : List Char
  deriving Repr, DecidableEq

instance : Inhabited AgentResponseM := ⟨⟨AgentType.policy_expert, []⟩⟩

/-- The agent-id registry (lines 122-130): per-type configured ids with
the main agent id as fallback for unconfigured types. -/
structure AgentConfig where
  agents : AgentType → Option (List Char)
  mainAgentId : List Char

/-- Outcome of the body of one loop iteration of
`_execute_agents_with_retry` (lines 336-367): news agents use the
real-time news path, all others dispatch by their configured id (or the
main agent id when unconfigured).  `dispatchById` abstracts
`_execute_single_agent_with_retry` on the search-enhanced prompt and
`newsResult` abstracts `_handle_news_query`. -/
def dispatchResultFor (cfg : AgentConfig)
    (dispatchById : List Char → Except (List Char) (List Char))
    (newsResult : Except (List Char) (List Char)) (t : AgentType) :
    Except (List Char) (List Char) :=
  if t = AgentType.news_monitor then newsResult
  else dispatchById ((cfg.agents t).getD cfg.mainAgentId)

/-- `_execute_agents_with_retry` (lines 329-373): each agent is tried in
order; a failing agent is logged and skipped (`except` at 369-371,
"Continue with other agents even if one fails"), never aborting the
loop. -/
def executeAgentsWithRetry (cfg : AgentConfig)
    (dispatchById : List Char → Except (List Char) (List Char))
    (newsResult : Except (List Char) (List Char)) :
    List AgentType → List AgentResponseM
  | [] => []
  | t :: rest =>
    match dispatchResultFor cfg dispatchById newsResult t with
    | .ok c => ⟨t, c⟩ :: executeAgentsWithRetry cfg dispatchById newsResult rest
    | .error _ => executeAgentsWithRetry cfg dispatchById newsResult rest

/-- `agent_type.value.replace('_', ' ').title()` for the known types. -/
def agentLabel : AgentType → List Char
  | .policy_expert => "Policy Expert".data
  | .news_monitor => "News Monitor".data
  | .document_analyzer => "Document Analyzer".data
  | .report_generator => "Report Generator".data
  | .orchestrator => "Orchestrator".data

/-- The numbered per-agent sections of the synthesis prompt
(lines 842-843). -/
def synthesisSections : Nat → List AgentResponseM → List Char
  | _, [] => []
  | i, r :: rest =>
    ("\n\n" ++ toString i ++ ". ").data ++ agentLabel r.agent_type ++
      " Analysis:\n".data ++ r.content ++ synthesisSections (i + 1) rest

/-- The synthesis prompt of `_synthesize_responses` (lines 836-853),
with the fixed instruction text abbreviated. -/
def synthesisPrompt (query : List Char) (responses : List AgentResponseM) :
    List Char :=
  ("Please synthesize the following expert responses into a comprehensive, coherent answer to the query: ").data
    ++ query ++ "\n\nExpert Responses:".data ++ synthesisSections 1 responses
    ++ "\n\nPlease provide a unified response.".data

/-- `_synthesize_responses` (lines 828-856): a single response is
returned verbatim; otherwise (including zero responses) one further
dispatch to the main agent is made with the synthesis prompt. -/
def synthesizeResponses
    (dispatchMain : List Char → Except (List Char) (List Char))
    (query : List Char) (responses : List AgentResponseM) :
    Except (List Char) (List Char) :=
  if responses.length = 1 then .ok responses.headI.content
  else dispatchMain (synthesisPrompt query responses)

/- ------------------------------------------------------------------
   C6 — failure semantics of multi-agent dispatch
   ------------------------------------------------------------------ -/

/-- Registry with no per-type agent ids configured: every non-news agent
dispatches to the main agent id, so no distinct fallback id exists. -/
def noAgentsConfig : AgentConfig := ⟨fun _ => none, "M".data⟩

/-- Dispatcher that fails every call. -/
def failingDispatch : List Char → Except (List Char) (List Char) :=
  fun _ => .error "Agent run failed".data

/-- C6 counterexample: the primary agent (policy expert, first in the
required list) dispatches to the main agent id itself — no distinct
fallback exists — and its dispatch fails; yet the query does not fail:
the loop drops the primary, keeps the news agent's answer, and synthesis
succeeds with that answer.  The code has no primary/secondary
distinction and no failure escalation in this loop. -/
theorem c6_primary_failure_counterexample :
    executeAgentsWithRetry noAgentsConfig failingDispatch
        (Except.ok "news ok".data)
        [AgentType.policy_expert, AgentType.news_monitor] =
      [⟨AgentType.news_monitor, "news ok".data⟩] ∧
    synthesizeResponses failingDispatch "q".data
        [⟨AgentType.news_monitor, "news ok".data⟩] =
      Except.ok "news ok".data := by decide

/-- C6 amended: every agent failure in the multi-agent dispatch loop —
primary or secondary alike — is logged and that agent is omitted from
the synthesis input without failing the query: the loop always returns
exactly the successful responses, in order.  The main agent id serves as
fallback only for unconfigured agent ids, not upon dispatch failure. -/
theorem c6_failure_isolation (cfg : AgentConfig)
    (dispatchById : List Char → Except (List Char) (List Char))
    (newsResult : Except (List Char) (List Char))
    (required : List AgentType) :
    executeAgentsWithRetry cfg dispatchById newsResult required =
      required.filterMap (fun t =>
        match dispatchResultFor cfg dispatchById newsResult t with
        | .ok c => some ⟨t, c⟩
        | .error _ => none) := by
  induction required with
  | nil => rfl
  | cons t rest ih =>
    simp only [executeAgentsWithRetry, List.filterMap_cons]
    cases dispatchResultFor cfg dispatchById newsResult t <;> simp [ih]

/- ------------------------------------------------------------------
   LegalMindOrchestrator._analyze_query_requirements
   (src/agents/orchestrator.py lines 666-715)
   ------------------------------------------------------------------ -/

def policyKeywords : List (List Char) :=
  ["eu ai act", "nist", "iso", "aida", "policy", "regulation", "compliance",
   "governance", "framework", "standard", "guideline",
   "requirement"].map String.data

def newsKeywords : List (List Char) :=
  ["latest", "recent", "news", "update", "announcement", "current",
   "today", "this week", "this month", "development"].map String.data

def docKeywords : List (List Char) :=
  ["analyze", "document", "file", "pdf", "review", "examine",
   "compare", "contrast", "summarize"].map String.data

def reportKeywords : List (List Char) :=
  ["report", "summary", "overview", "comprehensive", "detailed",
   "analysis", "pdf", "email", "send"].map String.data

/-- `any(keyword in query_lower for keyword in kws)`. -/
def keywordHit (kws : List (List Char)) (ql : List Char) : Bool :=
  kws.any (fun k => containsSub k ql)

/-- `_analyze_query_requirements` restricted to its return value (the
side effect forcing `output_format = "pdf"` on a report match is not
modelled): keyword-matched agent types in fixed order, defaulting to
the policy expert when nothing matched (lines 711-713). -/
def analyzeQueryRequirements (query : List Char) : List AgentType :=
  let ql := lowerAll query
  let r1 : List AgentType :=
    if keywordHit policyKeywords ql then [AgentType.policy_expert] else []
  let r2 := r1 ++
    (if keywordHit newsKeywords ql then [AgentType.news_monitor] else [])
  let r3 := r2 ++
    (if keywordHit docKeywords ql then [AgentType.document_analyzer] else [])
  let r4 := r3 ++
    (if keywordHit reportKeywords ql then [AgentType.report_generator] else [])
  if r4.isEmpty then [AgentType.policy_expert] else r4

/- ------------------------------------------------------------------
   C10 — routing always selects at least one agent
   ------------------------------------------------------------------ -/

/-- C10: the keyword routing always returns a non-empty agent list, and
when no policy, news, document or report keyword matches it returns
exactly the policy expert. -/
theorem c10_routing_nonempty (q : List Char) :
    analyzeQueryRequirements q ≠ [] ∧
    (keywordHit policyKeywords (lowerAll q) = false →
     keywordHit newsKeywords (lowerAll q) = false →
     keywordHit docKeywords (lowerAll q) = false →
     keywordHit reportKeywords (lowerAll q) = false →
     analyzeQueryRequirements q = [AgentType.policy_expert]) := by
  cases h1 : keywordHit policyKeywords (lowerAll q) <;>
  cases h2 : keywordHit newsKeywords (lowerAll q) <;>
  cases h3 : keywordHit docKeywords (lowerAll q) <;>
  cases h4 : keywordHit reportKeywords (lowerAll q) <;>
    exact ⟨by simp [analyzeQueryRequirements, h1, h2, h3, h4],
           by simp [analyzeQueryRequirements, h1, h2, h3, h4]⟩

/-- C10 witness: `c10_routing_nonempty` at the keyword-free query
`"zzz"`. -/
theorem c10_routing_nonempty_witness :
    analyzeQueryRequirements "zzz".data ≠ [] ∧
    analyzeQueryRequirements "zzz".data = [AgentType.policy_expert] :=
  ⟨(c10_routing_nonempty "zzz".data).1,
   (c10_routing_nonempty "zzz".data).2
     (by decide) (by decide) (by decide) (by decide)⟩

end LegalMind
